import Mathlib

/-!
Verification of the host runtime services layer of
`src/BasiliskII/src/Windows/main_windows.cpp`: guest address-space
management, the SIGSEGV fault monitor, the periodic interrupt
generator threads, the interrupt-flag set, and teardown ordering.
Machine integers are modelled as `Nat` with explicit reduction
modulo `2^32` / `2^64` where the C code relies on fixed-width
wraparound.
-/

namespace Macemu

/-- Number of values of a 64-bit unsigned integer (`uintptr` on the 64-bit host). -/
def U64 : Nat := 18446744073709551616

/-- Number of values of a 32-bit unsigned integer (`uint32`). -/
def U32 : Nat := 4294967296

/-! ## Fault monitor (sigsegv_handler, main_windows.cpp:143-164) -/

/-- Values of `sigsegv_return_t` used by `sigsegv_handler`. -/
inductive SigsegvReturn
  | success
  | skipInstruction
  | failure
deriving DecidableEq

/-- Disposition of a fault: which branch of `sigsegv_handler` fires. -/
inductive FaultDisposition
  | delegatedToVideo
  | benignRomWrite
  | ignoredByConfig
  | unrecoverable
deriving DecidableEq

/-- Unsigned 64-bit subtraction with wraparound, as in the C expression
`(uintptr)fault_address - (uintptr)ROMBaseHost`. -/
def uintptrSub (a b : Nat) : Nat := (a + U64 - b % U64) % U64

/-- Classification performed by `sigsegv_handler` (main_windows.cpp:143-164):
first the video collaborator (`Screen_fault_handler`, whose verdict is the
`screenFaultHandled` parameter), then the ROM-range test
`(uintptr)fault_address - (uintptr)ROMBaseHost < ROMSize`, then the
`ignoresegv` preference, else failure. -/
def classifyFault (screenFaultHandled : Bool) (faultAddress romBaseHost romSize : Nat)
    (ignoresegv : Bool) : FaultDisposition :=
  if screenFaultHandled then .delegatedToVideo
  else if uintptrSub faultAddress romBaseHost < romSize then .benignRomWrite
  else if ignoresegv then .ignoredByConfig
  else .unrecoverable

/-- Return value `sigsegv_handler` produces for each disposition. -/
def dispositionReturn : FaultDisposition → SigsegvReturn
  | .delegatedToVideo => .success
  | .benignRomWrite => .skipInstruction
  | .ignoredByConfig => .skipInstruction
  | .unrecoverable => .failure

/-- The whole handler: it returns the classified verdict and never writes to the
host ROM copy (`romBytes` is passed through unchanged; the faulting store is
skipped, not emulated). -/
def sigsegv_handler (screenFaultHandled : Bool) (faultAddress romBaseHost romSize : Nat)
    (ignoresegv : Bool) (romBytes : Nat → Nat) : SigsegvReturn × (Nat → Nat) :=
  (dispositionReturn (classifyFault screenFaultHandled faultAddress romBaseHost romSize ignoresegv),
   romBytes)

/-! ## Guest RAM size policy (run, main_windows.cpp:476-484) -/

/-- Preference-to-bytes step (main_windows.cpp:476-479): a `ramsize` preference
value not exceeding 1000 counts megabytes and is scaled to bytes in `uint32`
arithmetic. -/
def readRAMSizeRequest (pref : Nat) : Nat :=
  if pref % U32 ≤ 1000 then (pref % U32) * 1048576 % U32 else pref % U32

/-- Rounding and clamping of the requested byte size (main_windows.cpp:480-484):
`RAMSize &= 0xfff00000` rounds down to a 1 MiB boundary, then a result below
1 MiB is replaced by exactly 1 MiB after a `WarningAlert`; the Bool records
whether the warning fired. -/
def ramSizePolicy (s : Nat) : Nat × Bool :=
  if s &&& 0xfff00000 < 1048576 then (1048576, true) else (s &&& 0xfff00000, false)

/-! ## Region reservation (run, main_windows.cpp:489-496) -/

/-- Host memory region standing in for guest RAM or ROM. -/
structure GuestMemoryRegion where
  base : Nat
  size : Nat
deriving DecidableEq

/-- Size of the single host mapping requested by
`vm_acquire_mac(RAMSize + 0x100000)`. -/
def mappingRequestSize (ramSize : Nat) : Nat := ramSize + 1048576

/-- Split of the contiguous mapping (main_windows.cpp:495-496):
`RAMBaseHost = ram_rom_area` and `ROMBaseHost = RAMBaseHost + RAMSize`, with
the fixed 1 MiB ROM reservation. -/
def reserveRamRom (ram_rom_area ramSize : Nat) : GuestMemoryRegion × GuestMemoryRegion :=
  ({ base := ram_rom_area, size := ramSize },
   { base := ram_rom_area + ramSize, size := 1048576 })

/-- Address membership in a region. -/
def inRegion (a : Nat) (r : GuestMemoryRegion) : Prop :=
  r.base ≤ a ∧ a < r.base + r.size

/-! ## ROM loading (run, main_windows.cpp:520-544) -/

/-- Error taxonomy of the ROM loading sequence: `STR_NO_ROM_FILE_ERR`,
`STR_ROM_SIZE_ERR` and `STR_ROM_FILE_READ_ERR` diagnostics. -/
inductive RomError
  | NoRomFile
  | RomSizeError
  | RomLoadError
deriving DecidableEq

/-- Accepted ROM byte lengths (main_windows.cpp:534). -/
def validRomSizes : List Nat := [65536, 131072, 262144, 524288, 1048576]

/-- Outcome of the loading sequence: the diagnostic raised, if any, and how
many bytes were copied into the ROM region. -/
structure RomLoadOutcome where
  error : Option RomError
  bytesCopied : Nat
deriving DecidableEq

/-- ROM loading (main_windows.cpp:522-544): open the file (`fileOpened` is the
`CreateFile` outcome), check the size against the allowed set before any read,
then read; `readResult = none` models `ReadFile` returning 0, `some k` a read
reporting `bytes_read = k`. -/
def loadRom (fileOpened : Bool) (fileSize : Nat) (readResult : Option Nat) : RomLoadOutcome :=
  if fileOpened = false then { error := some .NoRomFile, bytesCopied := 0 }
  else if fileSize ∈ validRomSizes then
    match readResult with
    | none => { error := some .RomLoadError, bytesCopied := 0 }
    | some k =>
      if k = fileSize then { error := none, bytesCopied := k }
      else { error := some .RomLoadError, bytesCopied := k }
  else { error := some .RomSizeError, bytesCopied := 0 }

/-! ## Tick actions (one_second / one_tick, main_windows.cpp:732-754) -/

/-- Modelled from the spec: the 60 Hz and 1 Hz interrupt sources are distinct
bits of the shared interrupt-flag set; the numeric values of `INTFLAG_60HZ`
and `INTFLAG_1HZ` live in a header outside the unit under study, so two
distinct single-bit masks stand in for them. -/
def INTFLAG_60HZ : Nat := 1

/-- Modelled from the spec: distinct single bit for the 1 Hz interrupt source. -/
def INTFLAG_1HZ : Nat := 2

/-- Guest-visible effects of the tick actions: guest memory word 0x20c, the
interrupt-flag set, a count of `TriggerInterrupt()` notifications, and a ghost
counter of `one_second` executions. -/
structure MacState where
  mem20c : Nat
  intflags : Nat
  triggerCount : Nat
  secondRuns : Nat
deriving DecidableEq

/-- one_second (main_windows.cpp:732-739): write the wall-clock time
(`TimerDateTime()`, the `timerDateTime` parameter) to guest location 0x20c,
raise the 1 Hz flag, notify the CPU core. -/
def one_second (timerDateTime : Nat) (st : MacState) : MacState :=
  { mem20c := timerDateTime % U32
    intflags := st.intflags ||| INTFLAG_1HZ
    triggerCount := st.triggerCount + 1
    secondRuns := st.secondRuns + 1 }

/-- State of the tick worker: the `static int tick_counter` and the
guest-visible state. -/
structure TickSt where
  tick_counter : Nat
  mac : MacState
deriving DecidableEq

/-- one_tick (main_windows.cpp:741-754): `if (++tick_counter > 60)` reset the
counter and run `one_second`; then, when `ROMVersion != ROM_VERSION_CLASSIC ||
HasMacStarted()`, raise the 60 Hz flag and notify the CPU core. `classicROM`
stands for `ROMVersion == ROM_VERSION_CLASSIC`, `booted` for
`HasMacStarted()`. -/
def one_tick (timerDateTime : Nat) (classicROM booted : Bool) (st : TickSt) : TickSt :=
  let c := st.tick_counter + 1
  let c2 := if 60 < c then 0 else c
  let mac1 := if 60 < c then one_second timerDateTime st.mac else st.mac
  let mac2 :=
    if !classicROM || booted then
      { mac1 with intflags := mac1.intflags ||| INTFLAG_60HZ
                  triggerCount := mac1.triggerCount + 1 }
    else mac1
  { tick_counter := c2, mac := mac2 }

/-- Iterated tick action. -/
def tickN (timerDateTime : Nat) (classicROM booted : Bool) : Nat → TickSt → TickSt
  | 0, st => st
  | n + 1, st =>
    one_tick timerDateTime classicROM booted (tickN timerDateTime classicROM booted n st)

/-- Tick-worker state at program start: counter 0, flags clear. -/
def initialTickSt (m0 : Nat) : TickSt :=
  { tick_counter := 0
    mac := { mem20c := m0, intflags := 0, triggerCount := 0, secondRuns := 0 } }

/-! ## Tick worker loop (tick_func, main_windows.cpp:756-774) -/

/-- Nominal tick period in microseconds (`next += 16625`). -/
def TICK_PERIOD : Int := 16625

/-- State of the tick_func loop: simulated clock `t` (`GetTicks_usec()`), the
deadline `next`, and the times at which one_tick fired. -/
structure LoopSt where
  t : Int
  next : Int
  fires : List Int
deriving DecidableEq

/-- One iteration of the tick_func loop body (main_windows.cpp:762-768):
one_tick fires at time `t` (the iteration consumes `stall` µs of clock time,
0 in normal iterations), then `next += 16625` and `delay = next - now`; a
positive delay is slept (the clock advances to the deadline), a delay below
-16625 resynchronizes `next` to now without sleeping, and otherwise the
deadline is kept with no sleep. -/
def tickIteration (stall : Int) (st : LoopSt) : LoopSt :=
  if 0 < st.next + TICK_PERIOD - (st.t + stall) then
    { t := st.next + TICK_PERIOD, next := st.next + TICK_PERIOD
      fires := st.fires ++ [st.t] }
  else if st.next + TICK_PERIOD - (st.t + stall) < -TICK_PERIOD then
    { t := st.t + stall, next := st.t + stall, fires := st.fires ++ [st.t] }
  else
    { t := st.t + stall, next := st.next + TICK_PERIOD, fires := st.fires ++ [st.t] }

/-- Normal (stall-free) iterations of the loop. -/
def loopN : Nat → LoopSt → LoopSt
  | 0, st => st
  | n + 1, st => tickIteration 0 (loopN n st)

/-- Run the loop from a fresh start (`t = next = 0`): one iteration whose
one_tick stalls for `stall` µs, followed by n normal iterations. -/
def runLoop (stall : Int) (n : Nat) : LoopSt :=
  loopN n (tickIteration stall { t := 0, next := 0, fires := [] })

/-! ## Region teardown (QuitEmulator, main_windows.cpp:584-634) -/

/-- The `(void *)-1` failure sentinel of `vm_acquire`, as a 64-bit `uintptr`. -/
def VM_MAP_FAILED : Nat := 18446744073709551615

/-- Size of the scratch memory area (main_windows.cpp:70). -/
def SCRATCH_MEM_SIZE : Nat := 65536

/-- Host pointers of the three guest regions plus the RAM size, as `uintptr`
values (NULL = 0). `run()` initializes `RAMBaseHost = ROMBaseHost = NULL`
(main_windows.cpp:376-377) and the `ScratchMem` global starts as NULL
(main_windows.cpp:97); `ScratchMem` points to the middle of its block once
reserved (main_windows.cpp:505). -/
structure EmulMem where
  RAMBaseHost : Nat
  ROMBaseHost : Nat
  ScratchMem : Nat
  RAMSize : Nat
deriving DecidableEq

/-- Observable steps of QuitEmulator. -/
inductive TeardownEv
  | exit680x0
  | cancelTick
  | joinTick
  | cancelXpram
  | joinXpram
  | exitAll
  | vmRelease (addr size : Nat)
  | vmExit
  | sysExit
  | prefsExit
deriving DecidableEq

/-- Region-freeing portion of QuitEmulator (main_windows.cpp:606-622): each
region whose pointer differs from VM_MAP_FAILED is `vm_release`d and its
pointer set to NULL; the scratch release targets
`ScratchMem - SCRATCH_MEM_SIZE/2` in wrapping pointer arithmetic. -/
def freeRegions (st : EmulMem) : List TeardownEv × EmulMem :=
  let ramEvs := if st.RAMBaseHost ≠ VM_MAP_FAILED
    then [TeardownEv.vmRelease st.RAMBaseHost st.RAMSize] else []
  let ram2 := if st.RAMBaseHost ≠ VM_MAP_FAILED then 0 else st.RAMBaseHost
  let romEvs := if st.ROMBaseHost ≠ VM_MAP_FAILED
    then [TeardownEv.vmRelease st.ROMBaseHost 1048576] else []
  let rom2 := if st.ROMBaseHost ≠ VM_MAP_FAILED then 0 else st.ROMBaseHost
  let scrEvs := if st.ScratchMem ≠ VM_MAP_FAILED
    then [TeardownEv.vmRelease ((st.ScratchMem + U64 - 32768) % U64) SCRATCH_MEM_SIZE]
    else []
  let scr2 := if st.ScratchMem ≠ VM_MAP_FAILED then 0 else st.ScratchMem
  (ramEvs ++ romEvs ++ scrEvs,
   { RAMBaseHost := ram2, ROMBaseHost := rom2, ScratchMem := scr2, RAMSize := st.RAMSize })

/-- Started-worker flags (`tick_thread_active`, `xpram_thread_active`). -/
structure WorkerFlags where
  tick_thread_active : Bool
  xpram_thread_active : Bool
deriving DecidableEq

/-- Full event trace of QuitEmulator (main_windows.cpp:584-633): exit the CPU
emulation, set the cancel flag of and join each started worker, `ExitAll`,
free the regions, then `vm_exit` / `SysExit` / `PrefsExit`. -/
def QuitEmulatorTrace (w : WorkerFlags) (st : EmulMem) : List TeardownEv :=
  [TeardownEv.exit680x0]
    ++ (if w.tick_thread_active then [TeardownEv.cancelTick, TeardownEv.joinTick] else [])
    ++ (if w.xpram_thread_active then [TeardownEv.cancelXpram, TeardownEv.joinXpram] else [])
    ++ [TeardownEv.exitAll]
    ++ (freeRegions st).1
    ++ [TeardownEv.vmExit, TeardownEv.sysExit, TeardownEv.prefsExit]

/-- Join events: the points where a worker has observably stopped. -/
def isJoinEv : TeardownEv → Bool
  | TeardownEv.joinTick => true
  | TeardownEv.joinXpram => true
  | _ => false

/-- Cancellation-request events. -/
def isCancelEv : TeardownEv → Bool
  | TeardownEv.cancelTick => true
  | TeardownEv.cancelXpram => true
  | _ => false

/-- Region-release events. -/
def isReleaseEv : TeardownEv → Bool
  | TeardownEv.vmRelease _ _ => true
  | _ => false

/-! ## Interrupt flag set (main_windows.cpp:688-702) -/

/-- Observable steps of the flag operations: the mutex acquire/release and the
value stored into `InterruptFlags`. -/
inductive FlagEv
  | lockIntflags
  | writeFlags (v : Nat)
  | unlockIntflags
deriving DecidableEq

/-- SetInterruptFlag (main_windows.cpp:690-695): under the intflag mutex, OR
the flag into `InterruptFlags`; returns the event trace and the new value. -/
def SetInterruptFlag (flag InterruptFlags : Nat) : List FlagEv × Nat :=
  ([FlagEv.lockIntflags, FlagEv.writeFlags (InterruptFlags ||| flag),
    FlagEv.unlockIntflags],
   InterruptFlags ||| flag)

/-- Bitwise complement of a `uint32` value (`~flag`). -/
def uint32Not (f : Nat) : Nat := 4294967295 ^^^ f

/-- ClearInterruptFlag (main_windows.cpp:697-702): under the intflag mutex,
AND the complement of the flag into `InterruptFlags`. -/
def ClearInterruptFlag (flag InterruptFlags : Nat) : List FlagEv × Nat :=
  ([FlagEv.lockIntflags, FlagEv.writeFlags (InterruptFlags &&& uint32Not flag),
    FlagEv.unlockIntflags],
   InterruptFlags &&& uint32Not flag)

/-! ## Helper lemmas -/

/-- Masking with `0xfff00000` rounds a 32-bit value down to a 1 MiB boundary. -/
theorem and_high_mask_eq (s : Nat) (hs : s < U32) :
    s &&& 0xfff00000 = s / 1048576 * 1048576 := by
  have h1 : (0xfff00000 : Nat) = 4095 <<< 20 := by decide
  have h2 : s / 1048576 * 1048576 = (s >>> 20) <<< 20 := by
    rw [Nat.shiftLeft_eq, Nat.shiftRight_eq_div_pow]
  rw [h1, h2]
  apply Nat.eq_of_testBit_eq
  intro i
  rw [Nat.testBit_and, Nat.testBit_shiftLeft, Nat.testBit_shiftLeft, Nat.testBit_shiftRight]
  rcases Nat.lt_or_ge i 20 with h20 | h20
  · have hge : decide (i ≥ 20) = false := by
      simp only [decide_eq_false_iff_not]
      omega
    simp [hge]
  · have hge : decide (i ≥ 20) = true := by
      simp only [decide_eq_true_eq]
      omega
    have hadd : 20 + (i - 20) = i := by omega
    rcases Nat.lt_or_ge i 32 with h32 | h32
    · have hb : Nat.testBit 4095 (i - 20) = true := by
        have e : (4095 : Nat) = 2 ^ 12 - 1 := by norm_num
        rw [e, Nat.testBit_two_pow_sub_one]
        simp only [decide_eq_true_eq]
        omega
      simp [hge, hb, hadd]
    · have hb : Nat.testBit 4095 (i - 20) = false := by
        have e : (4095 : Nat) = 2 ^ 12 - 1 := by norm_num
        rw [e, Nat.testBit_two_pow_sub_one]
        simp only [decide_eq_false_iff_not]
        omega
      have hsb : s.testBit i = false := by
        apply Nat.testBit_lt_two_pow
        calc s < U32 := hs
          _ = 2 ^ 32 := by norm_num [U32]
          _ ≤ 2 ^ i := Nat.pow_le_pow_right (by norm_num) h32
      simp [hge, hb, hadd, hsb]

/-- The wrapped unsigned comparison of `sigsegv_handler` coincides with interval
membership in the ROM region when addresses fit in the pointer width. -/
theorem uintptrSub_lt_iff (f rb rs : Nat) (hf : f < U64) (hb : rb + rs ≤ U64) :
    (uintptrSub f rb < rs) ↔ (rb ≤ f ∧ f < rb + rs) := by
  simp only [uintptrSub, U64] at hf hb ⊢
  omega

/-! ## Theorems -/

/-- C1: fault classification is a deterministic, total function of
(fault address, region table, ignore-flag); in this fixed order with first
match winning: (1) screen faults are delegated to the video collaborator and
execution resumes; (2) otherwise a fault inside the ROM region is a benign
write-to-ROM, the instruction is skipped and the host ROM copy stays
unchanged; (3) otherwise the ignore-faults flag skips the instruction;
(4) otherwise the handler returns failure. -/
theorem C1_fault_classification (screen : Bool) (f rb rs : Nat) (ig : Bool)
    (romBytes : Nat → Nat) (hf : f < U64) (hb : rb + rs ≤ U64) :
    (classifyFault screen f rb rs ig = .delegatedToVideo ↔ screen = true) ∧
    (classifyFault screen f rb rs ig = .benignRomWrite ↔
      (screen = false ∧ rb ≤ f ∧ f < rb + rs)) ∧
    (classifyFault screen f rb rs ig = .ignoredByConfig ↔
      (screen = false ∧ ¬(rb ≤ f ∧ f < rb + rs) ∧ ig = true)) ∧
    (classifyFault screen f rb rs ig = .unrecoverable ↔
      (screen = false ∧ ¬(rb ≤ f ∧ f < rb + rs) ∧ ig = false)) ∧
    (classifyFault screen f rb rs ig = .delegatedToVideo →
      (sigsegv_handler screen f rb rs ig romBytes).1 = .success) ∧
    (classifyFault screen f rb rs ig = .benignRomWrite ∨
        classifyFault screen f rb rs ig = .ignoredByConfig →
      (sigsegv_handler screen f rb rs ig romBytes).1 = .skipInstruction) ∧
    (classifyFault screen f rb rs ig = .unrecoverable →
      (sigsegv_handler screen f rb rs ig romBytes).1 = .failure) ∧
    (sigsegv_handler screen f rb rs ig romBytes).2 = romBytes := by
  have hiff := uintptrSub_lt_iff f rb rs hf hb
  cases screen with
  | false =>
    by_cases hrom : uintptrSub f rb < rs
    · have hmem : rb ≤ f ∧ f < rb + rs := hiff.mp hrom
      cases ig <;>
        simp [classifyFault, sigsegv_handler, dispositionReturn, hrom, hmem]
    · have hmem : ¬(rb ≤ f ∧ f < rb + rs) := fun h => hrom (hiff.mpr h)
      cases ig <;>
        simp [classifyFault, sigsegv_handler, dispositionReturn, hrom, hmem]
  | true =>
    simp [classifyFault, sigsegv_handler, dispositionReturn]

/-- Witness for C1: a fault at address 0x5000 with ROM at [0x4000, 0x14000)
and ignore-flag unset is classified as a benign ROM write and skipped. -/
theorem C1_fault_classification_witness :
    classifyFault false 20480 16384 65536 false = .benignRomWrite ∧
    (sigsegv_handler false 20480 16384 65536 false (fun _ => 0)).1 = .skipInstruction := by
  have h := C1_fault_classification false 20480 16384 65536 false (fun _ => 0)
    (by norm_num [U64]) (by norm_num [U64])
  have hc : classifyFault false 20480 16384 65536 false = .benignRomWrite :=
    h.2.1.mpr ⟨rfl, by norm_num, by norm_num⟩
  exact ⟨hc, h.2.2.2.2.2.1 (Or.inl hc)⟩

/-- C4: for every requested RAM size s (in bytes, below 2^32), a size below
1 MiB is clamped up to exactly 1 MiB with a warning rather than a failure, and
any other size is rounded down to the nearest 1 MiB boundary with no warning. -/
theorem C4_ram_size_policy (s : Nat) (hs : s < U32) :
    (s < 1048576 → ramSizePolicy s = (1048576, true)) ∧
    (1048576 ≤ s → ramSizePolicy s = (s / 1048576 * 1048576, false)) := by
  have hmask := and_high_mask_eq s hs
  constructor
  · intro h
    have hz : s / 1048576 = 0 := Nat.div_eq_of_lt h
    unfold ramSizePolicy
    rw [hmask, hz]
    norm_num
  · intro h
    have h1 : 1 ≤ s / 1048576 := (Nat.le_div_iff_mul_le (by norm_num)).mpr (by omega)
    have h2 := Nat.mul_le_mul_right 1048576 h1
    unfold ramSizePolicy
    rw [hmask, if_neg (by omega)]

/-- Witness for C4: a 500-byte request is clamped to 1 MiB with a warning, and
a 5 MiB + 1 byte request is rounded down to 5 MiB without warning. -/
theorem C4_ram_size_policy_witness :
    ramSizePolicy 500 = (1048576, true) ∧ ramSizePolicy 5242881 = (5242880, false) := by
  constructor
  · exact (C4_ram_size_policy 500 (by norm_num [U32])).1 (by norm_num)
  · have h := (C4_ram_size_policy 5242881 (by norm_num [U32])).2 (by norm_num)
    have e : (5242881 : Nat) / 1048576 * 1048576 = 5242880 := by norm_num
    rw [e] at h
    exact h

/-- C9: the RAM and ROM regions come from one contiguous mapping of size
ramSize + 1 MiB: RAM is the first ramSize bytes, ROM starts exactly at
RAM base + ramSize with the fixed 1 MiB size, and no address lies in both. -/
theorem C9_contiguous_reservation (base ramSize a : Nat) :
    (reserveRamRom base ramSize).2.base =
      (reserveRamRom base ramSize).1.base + (reserveRamRom base ramSize).1.size ∧
    (reserveRamRom base ramSize).1.size + (reserveRamRom base ramSize).2.size =
      mappingRequestSize ramSize ∧
    (reserveRamRom base ramSize).2.size = 1048576 ∧
    (inRegion a (reserveRamRom base ramSize).1 →
      ¬ inRegion a (reserveRamRom base ramSize).2) := by
  refine ⟨rfl, rfl, rfl, ?_⟩
  intro h1 h2
  simp only [reserveRamRom, inRegion] at h1 h2
  omega

/-- Witness for C9: with a 4 MiB RAM reservation at base 0, the last RAM
address 0x3fffff is not in the ROM region. -/
theorem C9_contiguous_reservation_witness :
    inRegion 4194303 (reserveRamRom 0 4194304).1 ∧
    ¬ inRegion 4194303 (reserveRamRom 0 4194304).2 := by
  have hin : inRegion 4194303 (reserveRamRom 0 4194304).1 := by
    constructor
    · norm_num [reserveRamRom]
    · norm_num [reserveRamRom]
  exact ⟨hin, (C9_contiguous_reservation 0 4194304 4194303).2.2.2 hin⟩

/-- C5: every ROM file length outside {64K, 128K, 256K, 512K, 1M} fails with
`RomSizeError` before any bytes are copied into the ROM region; a read that
returns fewer bytes than the file length fails with the distinct
`RomLoadError`. -/
theorem C5_rom_size_validation (fileSize : Nat) (readResult : Option Nat) :
    (fileSize ∉ validRomSizes →
      loadRom true fileSize readResult = { error := some .RomSizeError, bytesCopied := 0 }) ∧
    (fileSize ∈ validRomSizes → ∀ k, readResult = some k → k ≠ fileSize →
      (loadRom true fileSize readResult).error = some .RomLoadError) ∧
    RomError.RomSizeError ≠ RomError.RomLoadError := by
  refine ⟨?_, ?_, by decide⟩
  · intro h
    simp [loadRom, h]
  · intro h k hk hne
    subst hk
    simp [loadRom, h, hne]

/-- Witness for C5: a 100 KiB ROM file is rejected with `RomSizeError` and
zero bytes copied. -/
theorem C5_rom_size_validation_witness :
    (102400 : Nat) ∉ validRomSizes ∧
    loadRom true 102400 (some 102400) =
      { error := some .RomSizeError, bytesCopied := 0 } := by
  exact ⟨by decide, (C5_rom_size_validation 102400 (some 102400)).1 (by decide)⟩

set_option maxRecDepth 10000 in
/-- Counterexample to C2: from the initial tick state, 60 executions of the
one-tick action run `one_second` zero times (the claim requires one run on
the 60th tick); it first runs on the 61st execution, because the code tests
`++tick_counter > 60`, which first succeeds when the counter reaches 61. -/
theorem C2_counterexample :
    (tickN 42 true false 60 (initialTickSt 7)).mac.secondRuns = 0 ∧
    (tickN 42 true false 61 (initialTickSt 7)).mac.secondRuns = 1 := by
  constructor <;> decide

/-- With a Classic-ROM guest that has not booted, one_tick reduces to the
counter handling and the conditional one_second run. -/
theorem one_tick_classic_unbooted (td : Nat) (st : TickSt) :
    one_tick td true false st =
      { tick_counter := if 60 < st.tick_counter + 1 then 0 else st.tick_counter + 1
        mac := if 60 < st.tick_counter + 1 then one_second td st.mac else st.mac } := by
  simp [one_tick]

/-- C2 amended: every execution of the one-tick action increments the internal
tick counter (mod 61), and exactly every 61st execution — not every 60th —
runs the one-second action, which writes the wall-clock time into guest
location 0x20c, raises the 1 Hz interrupt flag, and notifies the CPU core
once per run. (Stated with a Classic-ROM, not-yet-booted guest so the 60 Hz
branch stays off and only the one-second effects are visible.) -/
theorem C2_one_second_every_61 (timerDateTime m0 n : Nat) :
    (tickN timerDateTime true false n (initialTickSt m0)).tick_counter = n % 61 ∧
    (tickN timerDateTime true false n (initialTickSt m0)).mac.secondRuns = n / 61 ∧
    (tickN timerDateTime true false n (initialTickSt m0)).mac.mem20c =
      (if 61 ≤ n then timerDateTime % U32 else m0) ∧
    (tickN timerDateTime true false n (initialTickSt m0)).mac.intflags =
      (if 61 ≤ n then INTFLAG_1HZ else 0) ∧
    (tickN timerDateTime true false n (initialTickSt m0)).mac.triggerCount = n / 61 := by
  induction n with
  | zero => simp [tickN, initialTickSt]
  | succ n ih =>
    obtain ⟨h1, h2, h3, h4, h5⟩ := ih
    rw [tickN, one_tick_classic_unbooted, h1]
    dsimp only
    by_cases hc : n % 61 = 60
    · have hpos : 60 < n % 61 + 1 := by omega
      rw [if_pos hpos, if_pos hpos]
      dsimp only [one_second]
      refine ⟨by omega, ?_, ?_, ?_, ?_⟩
      · rw [h2]
        omega
      · rw [if_pos (by omega : 61 ≤ n + 1)]
      · rw [h4]
        rcases Nat.lt_or_ge n 61 with hlt | hge
        · rw [if_neg (by omega : ¬ 61 ≤ n), if_pos (by omega : 61 ≤ n + 1)]
          decide
        · rw [if_pos hge, if_pos (by omega : 61 ≤ n + 1)]
          decide
      · rw [h5]
        omega
    · have hneg : ¬ 60 < n % 61 + 1 := by omega
      rw [if_neg hneg, if_neg hneg]
      refine ⟨by omega, ?_, ?_, ?_, ?_⟩
      · rw [h2]
        omega
      · rw [h3]
        rcases Nat.lt_or_ge n 61 with hlt | hge
        · rw [if_neg (by omega : ¬ 61 ≤ n), if_neg (by omega : ¬ 61 ≤ n + 1)]
        · rw [if_pos hge, if_pos (by omega : 61 ≤ n + 1)]
      · rw [h4]
        rcases Nat.lt_or_ge n 61 with hlt | hge
        · rw [if_neg (by omega : ¬ 61 ≤ n), if_neg (by omega : ¬ 61 ≤ n + 1)]
        · rw [if_pos hge, if_pos (by omega : 61 ≤ n + 1)]
      · rw [h5]
        omega

/-- Counterexample to C7: with a non-Classic ROM version and the guest not yet
booted, a single tick nevertheless raises the 60 Hz interrupt flag and
notifies the CPU core, because the code gates on `ROMVersion !=
ROM_VERSION_CLASSIC || HasMacStarted()`. -/
theorem C7_counterexample :
    (one_tick 0 false false (initialTickSt 0)).mac.intflags = INTFLAG_60HZ ∧
    (one_tick 0 false false (initialTickSt 0)).mac.triggerCount = 1 := by
  constructor <;> rfl

/-- C7 amended: on every tick, the 60 Hz interrupt flag is raised exactly when
the ROM version is not Classic or the guest OS has finished booting
(`HasMacStarted()`); the boot gate applies only to Classic-ROM guests, for
which the flag bit is left unchanged until the guest has booted. -/
theorem one_tick_gated (td : Nat) (c b : Bool) (st : TickSt) (h : (!c || b) = true) :
    (one_tick td c b st).mac.intflags =
      (if 60 < st.tick_counter + 1 then one_second td st.mac else st.mac).intflags |||
        INTFLAG_60HZ := by
  simp [one_tick, h]

theorem C7_sixtyhz_gating (timerDateTime : Nat) (classicROM booted : Bool) (st : TickSt) :
    ((one_tick timerDateTime classicROM booted st).mac.intflags.testBit 0 =
      (st.mac.intflags.testBit 0 || (!classicROM || booted))) ∧
    (classicROM = true → booted = false →
      (one_tick timerDateTime classicROM booted st).mac.intflags.testBit 0 =
        st.mac.intflags.testBit 0) ∧
    ((!classicROM || booted) = true →
      (one_tick timerDateTime classicROM booted st).mac.intflags.testBit 0 = true) := by
  have h2f : Nat.testBit 2 0 = false := by decide
  have h1t : Nat.testBit 1 0 = true := by decide
  have hbit : ∀ x : Nat, (x ||| INTFLAG_1HZ).testBit 0 = x.testBit 0 := by
    intro x
    simp [INTFLAG_1HZ, Nat.testBit_or, h2f]
  have hbit60 : ∀ x : Nat, (x ||| INTFLAG_60HZ).testBit 0 = true := by
    intro x
    simp [INTFLAG_60HZ, Nat.testBit_or, h1t]
  cases classicROM with
  | true =>
    cases booted with
    | false =>
      have hmain : (one_tick timerDateTime true false st).mac.intflags.testBit 0 =
          st.mac.intflags.testBit 0 := by
        rw [one_tick_classic_unbooted]
        dsimp only
        split
        · exact hbit _
        · rfl
      refine ⟨?_, fun _ _ => hmain, fun h => absurd h (by decide)⟩
      rw [hmain]
      simp
    | true =>
      have hg := one_tick_gated timerDateTime true true st rfl
      refine ⟨?_, fun _ hb => absurd hb (by decide), fun _ => ?_⟩
      · rw [hg, hbit60]
        simp
      · rw [hg, hbit60]
  | false =>
    cases booted with
    | false =>
      have hg := one_tick_gated timerDateTime false false st rfl
      refine ⟨?_, fun hc _ => absurd hc (by decide), fun _ => ?_⟩
      · rw [hg, hbit60]
        simp
      · rw [hg, hbit60]
    | true =>
      have hg := one_tick_gated timerDateTime false true st rfl
      refine ⟨?_, fun hc _ => absurd hc (by decide), fun _ => ?_⟩
      · rw [hg, hbit60]
        simp
      · rw [hg, hbit60]

/-- Witness for C7 amended: a Classic-ROM guest that has not booted keeps the
60 Hz bit clear across a tick. -/
theorem C7_sixtyhz_gating_witness :
    (one_tick 0 true false (initialTickSt 0)).mac.intflags.testBit 0 =
      (initialTickSt 0).mac.intflags.testBit 0 := by
  exact (C7_sixtyhz_gating 0 true false (initialTickSt 0)).2.1 rfl rfl

/-- Counting a one-element list whose element satisfies the predicate. -/
theorem countP_single_true (p : Int → Bool) (x : Int) (h : p x = true) :
    List.countP p [x] = 1 := by
  simp [List.countP_cons, h]

/-- Counting a one-element list whose element fails the predicate. -/
theorem countP_single_false (p : Int → Bool) (x : Int) (h : p x = false) :
    List.countP p [x] = 0 := by
  simp [List.countP_cons, h]

/-- After a stall that triggers resynchronization, the clock and deadline
advance in lockstep by one period per iteration, and only the first
post-stall firing lands inside the stall window (0, S]. -/
theorem loopN_after_stall (S : Int) (hS : 2 * TICK_PERIOD < S) (k : Nat) :
    (loopN k (tickIteration S { t := 0, next := 0, fires := [] })).t =
      S + k * TICK_PERIOD ∧
    (loopN k (tickIteration S { t := 0, next := 0, fires := [] })).next =
      S + k * TICK_PERIOD ∧
    List.countP (fun x => decide (0 < x ∧ x ≤ S))
      (loopN k (tickIteration S { t := 0, next := 0, fires := [] })).fires =
      (if k = 0 then 0 else 1) := by
  have hP : TICK_PERIOD = 16625 := rfl
  rw [hP] at hS ⊢
  have hbase : tickIteration S { t := 0, next := 0, fires := [] } =
      { t := S, next := S, fires := [0] } := by
    simp only [tickIteration, TICK_PERIOD]
    rw [if_neg (by omega : ¬ (0 : Int) < 0 + 16625 - (0 + S)),
      if_pos (by omega : (0 : Int) + 16625 - (0 + S) < -16625)]
    simp
  rw [hbase]
  induction k with
  | zero =>
    refine ⟨by simp [loopN], by simp [loopN], ?_⟩
    rw [loopN, countP_single_false _ _ (by simp)]
    simp
  | succ k ih =>
    obtain ⟨iht, ihn, ihc⟩ := ih
    rw [loopN]
    simp only [tickIteration, TICK_PERIOD, iht, ihn, add_zero]
    rw [if_pos (by omega : (0 : Int) < S + ↑k * 16625 + 16625 - (S + ↑k * 16625))]
    refine ⟨?_, ?_, ?_⟩
    · dsimp only
      push_cast
      ring
    · dsimp only
      push_cast
      ring
    · dsimp only
      rw [List.countP_append, ihc]
      rcases Nat.eq_zero_or_pos k with hk | hk
      · subst hk
        rw [countP_single_true _ _ (by
          simp only [decide_eq_true_eq]
          constructor <;> omega)]
        simp
      · rw [countP_single_false _ _ (by
          simp only [decide_eq_false_iff_not, not_and, not_le]
          intro h
          omega)]
        rw [if_neg (by omega : ¬ k = 0), if_neg (by omega : ¬ k + 1 = 0)]

/-- C6: each loop iteration advances `next` by the fixed period 16625 µs
(unless resynchronizing), sleeps exactly the computed delay when it is
positive, and resynchronizes `next` to now (without sleeping) when behind by
more than one period (delay < -16625); consequently, after a stall long
enough that the observed delay is below -16625, exactly one one-tick firing
lands in the stall window (0, S] — not stall/period many. -/
theorem C6_drift_correction (stall : Int) (st : LoopSt) (S : Int) (n : Nat) :
    (-TICK_PERIOD ≤ st.next + TICK_PERIOD - (st.t + stall) →
      (tickIteration stall st).next = st.next + TICK_PERIOD) ∧
    (0 < st.next + TICK_PERIOD - (st.t + stall) →
      (tickIteration stall st).t =
        (st.t + stall) + (st.next + TICK_PERIOD - (st.t + stall))) ∧
    (st.next + TICK_PERIOD - (st.t + stall) < -TICK_PERIOD →
      (tickIteration stall st).next = st.t + stall ∧
      (tickIteration stall st).t = st.t + stall) ∧
    (2 * TICK_PERIOD < S → 1 ≤ n →
      List.countP (fun x => decide (0 < x ∧ x ≤ S)) (runLoop S n).fires = 1) := by
  have hP : TICK_PERIOD = 16625 := rfl
  refine ⟨?_, ?_, ?_, ?_⟩
  · intro hd
    rw [hP] at hd
    simp only [tickIteration, TICK_PERIOD]
    split_ifs <;> dsimp only <;> omega
  · intro hd
    rw [hP] at hd
    simp only [tickIteration, TICK_PERIOD]
    split_ifs <;> dsimp only <;> omega
  · intro hd
    rw [hP] at hd
    simp only [tickIteration, TICK_PERIOD]
    split_ifs <;> constructor <;> dsimp only <;> omega
  · intro hS hn
    obtain ⟨ht, hnx, hc⟩ := loopN_after_stall S hS n
    rw [if_neg (by omega : ¬ n = 0)] at hc
    exact hc

/-- Witness for C6: a 100000 µs stall (observed delay 16625 - 100000 <
-16625) leaves exactly one firing in the window (0, 100000]. -/
theorem C6_drift_correction_witness :
    (2 * TICK_PERIOD < (100000 : Int) ∧ (1 : Nat) ≤ 3) ∧
    List.countP (fun x => decide (0 < x ∧ x ≤ (100000 : Int)))
      (runLoop 100000 3).fires = 1 := by
  refine ⟨⟨by decide, by decide⟩, ?_⟩
  exact (C6_drift_correction 0 { t := 0, next := 0, fires := [] } 100000 3).2.2.2
    (by decide) (by decide)

/-- C3 evidence: the idempotence claim fails on the code. On the
never-reserved state that run() initializes (all three region pointers NULL),
teardown still performs a vm_release on each region — the guard compares
against VM_MAP_FAILED while the unreserved (and the already-released)
sentinel is NULL — and a second teardown after the pointers were cleared to
NULL performs the releases again. -/
theorem C3_release_not_idempotent :
    (freeRegions
        { RAMBaseHost := 0, ROMBaseHost := 0, ScratchMem := 0, RAMSize := 8388608 }).1 =
      [TeardownEv.vmRelease 0 8388608, TeardownEv.vmRelease 0 1048576,
       TeardownEv.vmRelease 18446744073709518848 65536] ∧
    (freeRegions (freeRegions
        { RAMBaseHost := 0, ROMBaseHost := 0, ScratchMem := 0, RAMSize := 8388608 }).2).1 ≠
      [] := by
  constructor <;> decide

/-- Every event emitted by the region-freeing code is a vm_release: none is a
join or a cancellation. -/
theorem freeRegions_events (st : EmulMem) (e : TeardownEv)
    (he : e ∈ (freeRegions st).1) :
    isJoinEv e = false ∧ isCancelEv e = false ∧ isReleaseEv e = true := by
  simp only [freeRegions] at he
  rcases List.mem_append.mp he with h | h
  · rcases List.mem_append.mp h with h | h
    · split at h
      · simp at h
        subst h
        exact ⟨rfl, rfl, rfl⟩
      · simp at h
    · split at h
      · simp at h
        subst h
        exact ⟨rfl, rfl, rfl⟩
      · simp at h
  · split at h
    · simp at h
      subst h
      exact ⟨rfl, rfl, rfl⟩
    · simp at h

/-- C8: with both workers started, the teardown trace decomposes into a
prefix that cancels and joins the tick worker and then the XPRAM watchdog —
containing no region release — followed by a suffix containing every region
release and no join or cancellation: each worker is observably stopped before
any guest memory region is released. -/
theorem C8_shutdown_ordering (w : WorkerFlags) (st : EmulMem)
    (ht : w.tick_thread_active = true) (hx : w.xpram_thread_active = true) :
    ∃ pre post,
      QuitEmulatorTrace w st = pre ++ post ∧
      pre = [TeardownEv.exit680x0, TeardownEv.cancelTick, TeardownEv.joinTick,
        TeardownEv.cancelXpram, TeardownEv.joinXpram, TeardownEv.exitAll] ∧
      (∀ e ∈ pre, isReleaseEv e = false) ∧
      (∀ e ∈ post, isJoinEv e = false ∧ isCancelEv e = false) ∧
      (∀ e ∈ QuitEmulatorTrace w st, isReleaseEv e = true → e ∈ post) := by
  have htr : QuitEmulatorTrace w st =
      [TeardownEv.exit680x0, TeardownEv.cancelTick, TeardownEv.joinTick,
        TeardownEv.cancelXpram, TeardownEv.joinXpram, TeardownEv.exitAll] ++
      ((freeRegions st).1 ++
        [TeardownEv.vmExit, TeardownEv.sysExit, TeardownEv.prefsExit]) := by
    simp [QuitEmulatorTrace, ht, hx]
  refine ⟨_, _, htr, rfl, by decide, ?_, ?_⟩
  · intro e he
    rcases List.mem_append.mp he with h | h
    · obtain ⟨hj, hc, _⟩ := freeRegions_events st e h
      exact ⟨hj, hc⟩
    · fin_cases h <;> exact ⟨rfl, rfl⟩
  · intro e he hrel
    rw [htr] at he
    rcases List.mem_append.mp he with h | h
    · exfalso
      fin_cases h <;> simp [isReleaseEv] at hrel
    · exact h

/-- Witness for C8: concrete teardown with both workers started and a
reserved memory state. -/
theorem C8_shutdown_ordering_witness :
    ∃ pre post,
      QuitEmulatorTrace { tick_thread_active := true, xpram_thread_active := true }
        { RAMBaseHost := 4096, ROMBaseHost := 1052672, ScratchMem := 32768,
          RAMSize := 1048576 } = pre ++ post ∧
      pre = [TeardownEv.exit680x0, TeardownEv.cancelTick, TeardownEv.joinTick,
        TeardownEv.cancelXpram, TeardownEv.joinXpram, TeardownEv.exitAll] ∧
      (∀ e ∈ pre, isReleaseEv e = false) ∧
      (∀ e ∈ post, isJoinEv e = false ∧ isCancelEv e = false) ∧
      (∀ e ∈ QuitEmulatorTrace { tick_thread_active := true, xpram_thread_active := true }
          { RAMBaseHost := 4096, ROMBaseHost := 1052672, ScratchMem := 32768,
            RAMSize := 1048576 }, isReleaseEv e = true → e ∈ post) := by
  exact C8_shutdown_ordering
    { tick_thread_active := true, xpram_thread_active := true }
    { RAMBaseHost := 4096, ROMBaseHost := 1052672, ScratchMem := 32768,
      RAMSize := 1048576 } rfl rfl

/-- C10: for every prior flag state s and flag f (as uint32 values),
SetInterruptFlag leaves the flag set equal to s OR f and ClearInterruptFlag
leaves it equal to s AND NOT f; each operation leaves every bit outside f
unchanged and drives every bit inside f to 1 (respectively 0); and each
performs its read-modify-write bracketed by the intflag mutex acquire and
release. -/
theorem C10_interrupt_flag_rmw (s f : Nat) (hs : s < U32) (hf : f < U32) :
    (SetInterruptFlag f s).2 = s ||| f ∧
    (ClearInterruptFlag f s).2 = s &&& uint32Not f ∧
    (∀ i, f.testBit i = false →
      (SetInterruptFlag f s).2.testBit i = s.testBit i ∧
      (ClearInterruptFlag f s).2.testBit i = s.testBit i) ∧
    (∀ i, f.testBit i = true →
      (SetInterruptFlag f s).2.testBit i = true ∧
      (ClearInterruptFlag f s).2.testBit i = false) ∧
    (SetInterruptFlag f s).1 =
      [FlagEv.lockIntflags, FlagEv.writeFlags (s ||| f), FlagEv.unlockIntflags] ∧
    (ClearInterruptFlag f s).1 =
      [FlagEv.lockIntflags, FlagEv.writeFlags (s &&& uint32Not f),
        FlagEv.unlockIntflags] := by
  have hmask : (4294967295 : Nat) = 2 ^ 32 - 1 := by norm_num
  have hU : U32 = 2 ^ 32 := by norm_num [U32]
  rw [hU] at hs hf
  refine ⟨rfl, rfl, ?_, ?_, rfl, rfl⟩
  · intro i hfi
    constructor
    · show (s ||| f).testBit i = s.testBit i
      rw [Nat.testBit_or, hfi, Bool.or_false]
    · show (s &&& uint32Not f).testBit i = s.testBit i
      rw [Nat.testBit_and, uint32Not, Nat.testBit_xor, hfi, hmask,
        Nat.testBit_two_pow_sub_one]
      rcases Nat.lt_or_ge i 32 with h32 | h32
      · simp [h32]
      · have hsb : s.testBit i = false := by
          apply Nat.testBit_lt_two_pow
          exact lt_of_lt_of_le hs (Nat.pow_le_pow_right (by norm_num) h32)
        rw [hsb]
        simp
  · intro i hfi
    have h32 : i < 32 := by
      by_contra h32
      have hfb : f.testBit i = false := by
        apply Nat.testBit_lt_two_pow
        exact lt_of_lt_of_le hf (Nat.pow_le_pow_right (by norm_num) (by omega))
      rw [hfb] at hfi
      cases hfi
    constructor
    · show (s ||| f).testBit i = true
      rw [Nat.testBit_or, hfi, Bool.or_true]
    · show (s &&& uint32Not f).testBit i = false
      rw [Nat.testBit_and, uint32Not, Nat.testBit_xor, hfi, hmask,
        Nat.testBit_two_pow_sub_one]
      simp [h32]

/-- Witness for C10: raising flag 2 over state 5 yields 5 OR 2, and clearing
flag 2 over state 7 leaves bit 0 (not in the flag) unchanged. -/
theorem C10_interrupt_flag_rmw_witness :
    (SetInterruptFlag 2 5).2 = 5 ||| 2 ∧
    (ClearInterruptFlag 2 7).2.testBit 0 = (7 : Nat).testBit 0 := by
  constructor
  · exact (C10_interrupt_flag_rmw 5 2 (by norm_num [U32]) (by norm_num [U32])).1
  · exact ((C10_interrupt_flag_rmw 7 2 (by norm_num [U32])
      (by norm_num [U32])).2.2.1 0 (by decide)).2

end Macemu
